import Mathlib

/-!
A shallow embedding of the engine-cache registry (src/index.js): an
in-memory mapping from normalized file-extension keys to engine descriptors,
plus a flat key/value options store.  JavaScript objects are modelled as
association lists keyed by `String`; callables are identified by numeric
tags, since the registry never invokes them — it only stores, validates and
returns them.
-/

namespace EngineCache

/-- A JavaScript property value, as far as `register`/`load` inspect one:
`undef` is an absent property (read back as `undefined`), `func` a callable
and `nonFunc` some other defined (truthy) value.  Callables carry an identity
tag because the registry only stores and compares them. -/
inductive PropVal where
  | undef : PropVal
  | func : Nat → PropVal
  | nonFunc : Nat → PropVal
deriving DecidableEq

/-- `typeof v === "function"` for a property value. -/
def PropVal.isCallable : PropVal → Bool
  | .func _ => true
  | _ => false

/-- JavaScript truthiness of a property value: `undefined` is falsy; the
modelled callables and other defined values are truthy. -/
def PropVal.truthy : PropVal → Bool
  | .undef => false
  | _ => true

/-- An options object: a flat mapping from string keys to (numeric) values. -/
abbrev OptsObj := List (String × Nat)

/-- The `engine` argument of `register` (a callable or a descriptor-shaped
object), and also the value stored in the engine cache after registration.
`isFunction` records `typeof fn === "function"`; `tag` identifies the
function/object itself; `render`, `renderFile`, `express` (the legacy
`__express` property) and `options` are the properties the source reads and
writes.  `options = none` models an absent (or falsy) `options` property;
owning the `render` property (own, enumerable) is modelled as the value being
different from `undef`. -/
structure EngineVal where
  isFunction : Bool := false
  tag : Nat := 0
  render : PropVal := .undef
  renderFile : PropVal := .undef
  express : PropVal := .undef
  options : Option OptsObj := none
deriving DecidableEq

/-- Property lookup on a JavaScript object modelled as an association list:
the first binding for the key wins (the operations below keep keys unique). -/
def lookupKey {α : Type} : List (String × α) → String → Option α
  | [], _ => none
  | p :: rest, key => if key = p.1 then some p.2 else lookupKey rest key

/-- `delete obj[key]`: drop every binding of `key`. -/
def delKey {α : Type} : List (String × α) → String → List (String × α)
  | [], _ => []
  | p :: rest, key => if p.1 = key then delKey rest key else p :: delKey rest key

/-- `obj[key] = v`: bind `key` to `v`, replacing any previous binding. -/
def setKey {α : Type} (m : List (String × α)) (key : String) (v : α) :
    List (String × α) :=
  (key, v) :: delKey m key

/-- `_.extend({}, base, obj)`: a fresh shallow merge in which the bindings of
`obj` take precedence over those of `base` (lookup takes the first match). -/
def mergeOpts (base obj : OptsObj) : OptsObj :=
  obj ++ base

/-- The whole mutable state of the registry: `engines.options` and
`engines.cache`. -/
structure EnginesState where
  options : OptsObj
  cache : List (String × EngineVal)
deriving DecidableEq

/-- `ext[0] === "."` — for the empty string `ext[0]` is `undefined`, which is
not `"."`. -/
def headIsDot (s : String) : Bool :=
  match s.data with
  | c :: _ => c = '.'
  | [] => false

/-- The extension normalization repeated in `register`, `get` and `clear`:
`if (ext[0] !== ".") ext = "." + ext`.  Note that the empty string becomes
`"."` and `"*"` becomes `".*"`. -/
def normalizeExt (ext : String) : String :=
  if headIsDot ext then ext else "." ++ ext

/-- The descriptor `register` resolves from its input before validating:
for a callable, `engine = fn; engine.render = fn.render`; for an object,
`engine = fn; engine.renderFile = fn.renderFile || fn.__express`; in both
cases `engine.options = fn.options || options || {}`.
(`optionsArg` is the `options` parameter after the arity shuffle.) -/
def resolveEngine (optionsArg : Option OptsObj) (fn : EngineVal) : EngineVal :=
  let engine :=
    if fn.isFunction then
      { fn with render := fn.render }
    else
      { fn with renderFile := if fn.renderFile.truthy then fn.renderFile else fn.express }
  { engine with options := some ((fn.options <|> optionsArg).getD []) }

/-- The body of `engines.register(ext, options, fn)` after the arity shuffle.
It resolves the descriptor, throws (`some` message) when the resolved
descriptor has no callable `render`, and otherwise stores the descriptor
under the dot-normalized key.  The returned state is the registry state as of
the return or throw: the cache assignment happens only after validation. -/
def registerWith (s : EnginesState) (ext : String) (optionsArg : Option OptsObj)
    (fn : EngineVal) : EnginesState × Option String :=
  let engine := resolveEngine optionsArg fn
  if engine.render.isCallable then
    ({ s with cache := setKey s.cache (normalizeExt ext) engine }, none)
  else
    (s, some "Engines are expected to have a `render` method.")

/-- `engines.register(ext, engine)` with two arguments: the source shifts
`fn = options; options = {}`. -/
def register2 (s : EnginesState) (ext : String) (fn : EngineVal) :
    EnginesState × Option String :=
  registerWith s ext (some []) fn

/-- Modelled from the spec: `./defaults/lodash` is not under `src/`.  Per the
spec it is a descriptor whose `render(input, locals, callback)` interpolates
`locals` into `input`; here only its shape matters: an object exposing a
callable `render` (identity tag 0). -/
def lodashEngine : EngineVal :=
  { isFunction := false, tag := 0, render := .func 0 }

/-- Modelled from the spec: `./defaults/noop` is not under `src/`.  Per the
spec it is a descriptor whose `render` returns its input unchanged; here only
its shape matters: an object exposing a callable `render` (identity tag 1). -/
def noopEngine : EngineVal :=
  { isFunction := false, tag := 1, render := .func 1 }

/-- `engines.defaultEngines()`: registers the bundled `tmpl` and `*`
engines.  Both descriptors have a callable `render`, so neither registration
throws and taking the resulting state is faithful. -/
def defaultEngines (s : EnginesState) : EnginesState :=
  let s1 := (register2 s "tmpl" lodashEngine).1
  (register2 s1 "*" noopEngine).1

/-- `engines.extend(obj)`: rebuilds the options store as a fresh shallow
merge and returns the registry. -/
def extendFn (s : EnginesState) (obj : OptsObj) : EnginesState :=
  { s with options := mergeOpts s.options obj }

/-- `engines.init(opts)`: resets both stores to empty, shallow-merges `opts`
into the fresh options store, then installs the default engines.  The prior
state `s` is discarded entirely, exactly as in the source. -/
def initFn (s : EnginesState) (opts : OptsObj) : EnginesState :=
  let _ := s
  let s1 : EnginesState := { options := [], cache := [] }
  defaultEngines (extendFn s1 opts)

/-- What `engines.get` returns: the whole cache, or one (possibly absent)
engine. -/
inductive GetResult where
  | all : List (String × EngineVal) → GetResult
  | one : Option EngineVal → GetResult
deriving DecidableEq

/-- `engines.get(ext)`: a falsy `ext` (absent argument or empty string)
returns the whole cache; otherwise the key is dot-normalized and looked up,
falling back to `cache["*"]` when the exact lookup misses.  (Stored engines
are objects or functions, hence truthy, so `!engine` is exactly a missed
lookup; the dead `ext = ext || this.noop` line of the source is unreachable
here because `ext` is truthy past the first branch.) -/
def getFn (s : EnginesState) (ext : Option String) : GetResult :=
  match ext with
  | none => .all s.cache
  | some e =>
    if e = "" then .all s.cache
    else
      match lookupKey s.cache (normalizeExt e) with
      | some engine => .one (some engine)
      | none => .one (lookupKey s.cache "*")

/-- `engines.clear(ext)`: a truthy `ext` is dot-normalized and its single
entry deleted; a falsy `ext` (absent or empty string) replaces the whole
cache with an empty mapping.  The options store is never touched. -/
def clearFn (s : EnginesState) (ext : Option String) : EnginesState :=
  match ext with
  | some e =>
    if e = "" then { s with cache := [] }
    else { s with cache := delKey s.cache (normalizeExt e) }
  | none => { s with cache := [] }

/-- The three call shapes of `engines.option`. -/
inductive OptionArg where
  | str : String → OptionArg
  | obj : OptsObj → OptionArg
  | kv : String → Nat → OptionArg

/-- What `engines.option` returns: a read value or the registry. -/
inductive OptionResult where
  | value : Option Nat → OptionResult
  | chain : EnginesState → OptionResult
deriving DecidableEq

/-- `engines.option`: one string argument reads; one object argument
shallow-merges into the options store in place; two arguments set one key. -/
def optionFn (s : EnginesState) (arg : OptionArg) : OptionResult :=
  match arg with
  | .str key => .value (lookupKey s.options key)
  | .obj o => .chain { s with options := mergeOpts s.options o }
  | .kv key v => .chain { s with options := setKey s.options key v }

/-- `engines.load(obj)`: `_.forIn` over the entries, registering those whose
value owns a `render` property (`hasOwnProperty`), skipping the rest.  A
throw inside `register` propagates, aborting the remaining entries; the state
registered so far is kept, as with the shared mutable state in the source. -/
def loadFn (s : EnginesState) (obj : List (String × EngineVal)) :
    EnginesState × Option String :=
  match obj with
  | [] => (s, none)
  | (key, value) :: rest =>
    if value.render ≠ PropVal.undef then
      match register2 s key value with
      | (s2, none) => loadFn s2 rest
      | (s2, some err) => (s2, some err)
    else
      loadFn s rest

/-- A fresh empty registry state, used by the concrete instances below. -/
def s0 : EnginesState := { options := [], cache := [] }

/-- A bare callable: `typeof fn === "function"` with no `render` property. -/
def bareCallable : EngineVal := { isFunction := true, tag := 7 }

/-- An empty object descriptor with no properties at all, as in the
`register("x", ...)` example of the spec with an empty object. -/
def emptyDescriptor : EngineVal := { isFunction := false, tag := 8 }

/-- An object owning a `render` property whose value is not callable. -/
def badRenderDescriptor : EngineVal :=
  { isFunction := false, tag := 9, render := .nonFunc 3 }

/-- An object descriptor with a callable `render`, like the spec engine
`fn1` wrapped in an object. -/
def goodDescriptor : EngineVal :=
  { isFunction := false, tag := 10, render := .func 2 }

/-- A demonstration state with two cache entries and one option. -/
def sDemo : EnginesState :=
  { options := [("o", 5)], cache := [(".a", noopEngine), (".b", lodashEngine)] }

theorem lookupKey_delKey {α : Type} (m : List (String × α)) (k k2 : String) :
    lookupKey (delKey m k) k2 = if k2 = k then none else lookupKey m k2 := by
  induction m with
  | nil => simp [delKey, lookupKey]
  | cons p rest ih =>
    by_cases h1 : p.1 = k
    · by_cases h2 : k2 = k
      · subst h2
        simp [delKey, lookupKey, h1, ih]
      · have h3 : ¬ k2 = p.1 := fun hc => h2 (h1 ▸ hc)
        simp [delKey, lookupKey, h1, h2, h3, ih]
    · by_cases h2 : k2 = p.1
      · have h3 : ¬ k2 = k := fun hc => h1 (h2 ▸ hc)
        simp [delKey, lookupKey, h1, h2, h3, ih]
      · simp [delKey, lookupKey, h1, h2, ih]

theorem lookupKey_setKey {α : Type} (m : List (String × α)) (k k2 : String) (v : α) :
    lookupKey (setKey m k v) k2 = if k2 = k then some v else lookupKey m k2 := by
  by_cases h : k2 = k <;> simp [setKey, lookupKey, lookupKey_delKey, h]

theorem lookupKey_eq_none_iff {α : Type} (m : List (String × α)) (k : String) :
    lookupKey m k = none ↔ ∀ p ∈ m, p.1 ≠ k := by
  induction m with
  | nil => simp [lookupKey]
  | cons p rest ih =>
    by_cases h : k = p.1
    · subst h
      simp [lookupKey]
    · have h2 : p.1 ≠ k := fun hc => h hc.symm
      simp [lookupKey, h, h2, ih]

theorem delKey_eq_self {α : Type} (m : List (String × α)) (k : String)
    (h : lookupKey m k = none) : delKey m k = m := by
  induction m with
  | nil => rfl
  | cons p rest ih =>
    rw [lookupKey_eq_none_iff] at h
    have hp : p.1 ≠ k := h p (by simp)
    have hr : lookupKey rest k = none := by
      rw [lookupKey_eq_none_iff]
      exact fun q hq => h q (by simp [hq])
    simp [delKey, hp, ih hr]

theorem lookupKey_append {α : Type} (a b : List (String × α)) (k : String) :
    lookupKey (a ++ b) k =
      if (lookupKey a k).isSome then lookupKey a k else lookupKey b k := by
  induction a with
  | nil => simp [lookupKey]
  | cons p rest ih =>
    by_cases h : k = p.1 <;> simp [lookupKey, h, ih]

theorem headIsDot_dot_append (e : String) : headIsDot ("." ++ e) = true := by
  cases e; rfl

theorem dot_append_ne_empty (e : String) : "." ++ e ≠ "" := by
  intro hc
  have hd := headIsDot_dot_append e
  rw [hc] at hd
  exact absurd hd (by decide)

theorem normalizeExt_dot_append (e : String) (h : headIsDot e = false) :
    normalizeExt e = "." ++ e := by
  simp [normalizeExt, h]

theorem normalizeExt_dotted (e : String) (h : headIsDot e = true) :
    normalizeExt e = e := by
  simp [normalizeExt, h]

theorem resolveEngine_render (o : Option OptsObj) (fn : EngineVal) :
    (resolveEngine o fn).render = fn.render := by
  by_cases h : fn.isFunction <;> simp [resolveEngine, h]

theorem registerWith_ok (s : EnginesState) (ext : String) (o : Option OptsObj)
    (fn : EngineVal) (h : (resolveEngine o fn).render.isCallable = true) :
    registerWith s ext o fn =
      ({ s with cache := setKey s.cache (normalizeExt ext) (resolveEngine o fn) }, none) := by
  simp [registerWith, h]

theorem registerWith_err (s : EnginesState) (ext : String) (o : Option OptsObj)
    (fn : EngineVal) (h : (resolveEngine o fn).render.isCallable = false) :
    registerWith s ext o fn = (s, some "Engines are expected to have a `render` method.") := by
  simp [registerWith, h]

theorem register2_ok (s : EnginesState) (ext : String) (fn : EngineVal)
    (h : fn.render.isCallable = true) :
    register2 s ext fn =
      ({ s with cache := setKey s.cache (normalizeExt ext) (resolveEngine (some []) fn) }, none) :=
  registerWith_ok s ext (some []) fn (by rw [resolveEngine_render]; exact h)

theorem loadFn_cons (s : EnginesState) (p : String × EngineVal)
    (rest : List (String × EngineVal)) :
    loadFn s (p :: rest) =
      if p.2.render ≠ PropVal.undef then
        match register2 s p.1 p.2 with
        | (s2, none) => loadFn s2 rest
        | (s2, some err) => (s2, some err)
      else loadFn s rest := by
  cases p
  rfl

/-- C1: the claim fails on the code.  After default initialization
(`init` installs the bundled `.tmpl` and `*` engines), `get` on an extension
with no exact match returns an absent value, not the wildcard descriptor:
`register` dot-normalizes every key, storing the wildcard under `.*`, while
the fallback of `get` reads `cache["*"]`, a key that can never exist. -/
theorem c1_get_unknown_after_init_is_absent :
    getFn (initFn s0 []) (some "unknownext") = .one none := by decide

/-- C2 counterexample: `register` applied to the literal wildcard key `*`
does not store the descriptor under `*` — that key is absent afterwards and
the entry lands under `.*`. -/
theorem c2_star_not_exempt :
    lookupKey (register2 s0 "*" noopEngine).1.cache "*" = none ∧
    (lookupKey (register2 s0 "*" noopEngine).1.cache ".*").isSome = true := by decide

/-- C2 (amended): `register` prefixes a leading dot to every key whose first
character is not a dot — the wildcard `*` is not exempt (it is stored under
`.*`) and the empty key is stored under `.`; keys already starting with a dot
are kept, and a successful registration stores the resolved descriptor at
exactly the normalized key, leaving every other key unchanged. -/
theorem c2_register_normalization (s : EnginesState) (o : Option OptsObj)
    (fn : EngineVal) (ext : String)
    (h : (resolveEngine o fn).render.isCallable = true) :
    normalizeExt "*" = ".*" ∧ normalizeExt "" = "." ∧
    (headIsDot ext = true → normalizeExt ext = ext) ∧
    (∀ k, lookupKey ((registerWith s ext o fn).1).cache k =
      if k = normalizeExt ext then some (resolveEngine o fn) else lookupKey s.cache k) := by
  refine ⟨by decide, by decide, fun hd => normalizeExt_dotted ext hd, fun k => ?_⟩
  rw [registerWith_ok s ext o fn h]
  exact lookupKey_setKey s.cache (normalizeExt ext) k (resolveEngine o fn)

/-- C2 witness: registering the noop engine under `*` in the empty registry
stores it under `.*`. -/
theorem c2_register_normalization_witness :
    lookupKey ((registerWith s0 "*" (some []) noopEngine).1).cache ".*" =
      some (resolveEngine (some []) noopEngine) :=
  ((c2_register_normalization s0 (some []) noopEngine "*" (by decide)).2.2.2 ".*").trans
    (by decide)

/-- C3: the claim fails on the code.  Registering a bare callable that
exposes no `render` property throws the Invalid Engine error and stores
nothing: the source sets `engine.render = fn.render` (which is `undefined`
for a bare callable) instead of falling back to the callable itself. -/
theorem c3_bare_callable_rejected :
    registerWith s0 "hbs" (some []) bareCallable =
      (s0, some "Engines are expected to have a `render` method.") := by decide

/-- C4: `register` throws the Invalid Engine error exactly when the resolved
descriptor has no callable `render`, and in that failing case the registry
state — the key being registered and every other key, and the options store —
is left completely unmodified. -/
theorem c4_invalid_engine_iff (s : EnginesState) (ext : String)
    (o : Option OptsObj) (fn : EngineVal) :
    ((registerWith s ext o fn).2.isSome = true ↔
      (resolveEngine o fn).render.isCallable = false) ∧
    ((registerWith s ext o fn).2.isSome = true → (registerWith s ext o fn).1 = s) := by
  cases hc : (resolveEngine o fn).render.isCallable with
  | true =>
    rw [registerWith_ok s ext o fn hc]
    simp
  | false =>
    rw [registerWith_err s ext o fn hc]
    simp

/-- C4 witness: registering an empty object descriptor under `x` in the
empty registry throws and leaves the state unchanged. -/
theorem c4_invalid_engine_iff_witness :
    (registerWith s0 "x" (some []) emptyDescriptor).1 = s0 :=
  (c4_invalid_engine_iff s0 "x" (some []) emptyDescriptor).2 (by decide)

/-- C5 counterexample: an entry whose value owns a (non-callable) `render`
property is not registered — `load` propagates the Invalid Engine throw of
`register` instead of registering the entry. -/
theorem c5_owned_render_not_registered :
    badRenderDescriptor.render ≠ PropVal.undef ∧
    lookupKey (loadFn s0 [("x", badRenderDescriptor)]).1.cache ".x" = none ∧
    (loadFn s0 [("x", badRenderDescriptor)]).2.isSome = true := by decide

/-- C5 (amended): for a mapping in which every value owning a `render`
property has a callable one, `load` raises no error, every entry owning a
`render` property ends up registered under the dot-normalized mapping key,
and every key not targeted by such an entry is unchanged — in particular the
entries lacking a `render` property are silently skipped.  (An entry owning a
non-callable `render` instead raises the Invalid Engine error of `register`
and aborts the rest of the load.) -/
theorem c5_load_characterization (s : EnginesState) (obj : List (String × EngineVal))
    (h : ∀ p ∈ obj, p.2.render ≠ PropVal.undef → p.2.render.isCallable = true) :
    (loadFn s obj).2 = none ∧
    (∀ p ∈ obj, p.2.render ≠ PropVal.undef →
      (lookupKey (loadFn s obj).1.cache (normalizeExt p.1)).isSome = true) ∧
    (∀ k, (∀ p ∈ obj, p.2.render ≠ PropVal.undef → normalizeExt p.1 ≠ k) →
      lookupKey (loadFn s obj).1.cache k = lookupKey s.cache k) := by
  induction obj generalizing s with
  | nil =>
    exact ⟨rfl, by simp, fun k _ => rfl⟩
  | cons q rest ih =>
    by_cases hv : q.2.render ≠ PropVal.undef
    · have hc : q.2.render.isCallable = true := h q (by simp) hv
      have hrest : ∀ p ∈ rest, p.2.render ≠ PropVal.undef → p.2.render.isCallable = true :=
        fun p hp => h p (by simp [hp])
      rw [loadFn_cons, if_pos hv, register2_ok s q.1 q.2 hc]
      set s2 : EnginesState :=
        { s with cache := setKey s.cache (normalizeExt q.1) (resolveEngine (some []) q.2) } with hs2
      obtain ⟨ih1, ih2, ih3⟩ := ih s2 hrest
      refine ⟨ih1, ?_, ?_⟩
      · intro p hp hpr
        rcases List.mem_cons.mp hp with hph | hpt
        · subst hph
          by_cases hk : (∀ r ∈ rest, r.2.render ≠ PropVal.undef → normalizeExt r.1 ≠ normalizeExt p.1)
          · rw [ih3 (normalizeExt p.1) hk]
            rw [hs2]
            simp [lookupKey_setKey]
          · push_neg at hk
            obtain ⟨r, hr, hrr, hre⟩ := hk
            have := ih2 r hr hrr
            rw [hre] at this
            exact this
        · exact ih2 p hpt hpr
      · intro k hk
        have hq : normalizeExt q.1 ≠ k := hk q (by simp) hv
        rw [ih3 k (fun p hp hpr => hk p (by simp [hp]) hpr)]
        rw [hs2]
        rw [lookupKey_setKey]
        exact if_neg (fun hc2 => hq hc2.symm)
    · have hveq : q.2.render = PropVal.undef := by
        by_contra hcon
        exact hv hcon
      rw [loadFn_cons, if_neg hv]
      have hrest : ∀ p ∈ rest, p.2.render ≠ PropVal.undef → p.2.render.isCallable = true :=
        fun p hp => h p (by simp [hp])
      obtain ⟨ih1, ih2, ih3⟩ := ih s hrest
      refine ⟨ih1, ?_, ?_⟩
      · intro p hp hpr
        rcases List.mem_cons.mp hp with hph | hpt
        · subst hph
          exact absurd hveq hpr
        · exact ih2 p hpt hpr
      · intro k hk
        exact ih3 k (fun p hp hpr => hk p (by simp [hp]) hpr)

/-- C5 witness: the example of the spec — loading a mapping with one entry
owning a callable `render` and one entry without `render` raises no error. -/
theorem c5_load_characterization_witness :
    (loadFn s0 [("hbs", goodDescriptor), ("txt", emptyDescriptor)]).2 = none :=
  (c5_load_characterization s0 [("hbs", goodDescriptor), ("txt", emptyDescriptor)]
    (by decide)).1

/-- C6 counterexample: `clear` applied to the empty string does not remove
only the single dot-normalized entry — the empty string is falsy, so the
whole cache is replaced: the unrelated `.a` entry disappears. -/
theorem c6_clear_empty_string_clears_all :
    (lookupKey sDemo.cache ".a").isSome = true ∧
    lookupKey (clearFn sDemo (some "")).cache ".a" = none := by decide

/-- C6 (amended): `clear()` with no argument replaces the engine cache with
an empty mapping leaving the options store unchanged; for a nonempty
extension, `clear(ext)` removes exactly the dot-normalized entry, leaves
every other cache entry and the options store unchanged, and is a silent
no-op on the whole state when the key is absent; `clear` on the empty string
(a falsy argument) behaves like the no-argument call. -/
theorem c6_clear_characterization (s : EnginesState) (e : String) (h : e ≠ "") :
    (clearFn s none).cache = [] ∧
    (clearFn s none).options = s.options ∧
    (clearFn s (some e)).options = s.options ∧
    (∀ k, lookupKey (clearFn s (some e)).cache k =
      if k = normalizeExt e then none else lookupKey s.cache k) ∧
    (lookupKey s.cache (normalizeExt e) = none → clearFn s (some e) = s) ∧
    clearFn s (some "") = clearFn s none := by
  refine ⟨rfl, rfl, ?_, ?_, ?_, rfl⟩
  · simp [clearFn, h]
  · intro k
    simp [clearFn, h, lookupKey_delKey]
  · intro hnone
    simp [clearFn, h, delKey_eq_self s.cache (normalizeExt e) hnone]

/-- C6 witness: clearing `a` from the demo state removes `.a` and keeps the
options store. -/
theorem c6_clear_characterization_witness :
    lookupKey (clearFn sDemo (some "a")).cache ".a" = none ∧
    (clearFn sDemo (some "a")).options = sDemo.options :=
  ⟨((c6_clear_characterization sDemo "a" (by decide)).2.2.2.1 ".a").trans (by decide),
   (c6_clear_characterization sDemo "a" (by decide)).2.2.1⟩

/-- C7 counterexample: at the empty extension the two calls differ —
`get` on the empty string returns the whole cache while `get` on a lone dot
performs a lookup and, after default initialization, yields an absent
value. -/
theorem c7_empty_string_differs :
    getFn (initFn s0 []) (some "") ≠ getFn (initFn s0 []) (some ".") := by decide

/-- C7 (amended): for every nonempty extension string without a leading dot,
`get(e)` and `get("." + e)` return the identical result. -/
theorem c7_get_dot_idempotent (s : EnginesState) (e : String)
    (h1 : e ≠ "") (h2 : headIsDot e = false) :
    getFn s (some e) = getFn s (some ("." ++ e)) := by
  simp [getFn, h1, dot_append_ne_empty e, normalizeExt_dot_append e h2,
    normalizeExt_dotted ("." ++ e) (headIsDot_dot_append e)]

/-- C7 witness: on the demo state, `get("a")` and `get(".a")` agree. -/
theorem c7_get_dot_idempotent_witness :
    getFn sDemo (some "a") = getFn sDemo (some ".a") :=
  c7_get_dot_idempotent sDemo "a" (by decide) (by decide)

/-- C8: `extend(obj)` shallow-merges `obj` into the options store — a key
reads as the value from `obj` when present there and as the previous value
otherwise — so successive calls accumulate, as in the spec example: after
extending with one binding for `a` and then one for `b`, `option` reads `1`
for `a` and `2` for `b`. -/
theorem c8_extend_shallow_merge (s : EnginesState) (obj : OptsObj) (k : String) :
    lookupKey (extendFn s obj).options k =
      (if (lookupKey obj k).isSome then lookupKey obj k else lookupKey s.options k) ∧
    optionFn (extendFn (extendFn s [("a", 1)]) [("b", 2)]) (.str "a") = .value (some 1) ∧
    optionFn (extendFn (extendFn s [("a", 1)]) [("b", 2)]) (.str "b") = .value (some 2) := by
  refine ⟨?_, rfl, rfl⟩
  show lookupKey (obj ++ s.options) k = _
  exact lookupKey_append obj s.options k

/-- C9 counterexample: after default initialization the engine cache has no
key `*` — the wildcard default descriptor is stored under `.*` (and the
other default under `.tmpl`). -/
theorem c9_no_star_key_after_init :
    lookupKey (initFn s0 []).cache "*" = none ∧
    (lookupKey (initFn s0 []).cache ".*").isSome = true ∧
    (lookupKey (initFn s0 []).cache ".tmpl").isSome = true := by decide

/-- C9 (amended): `init(opts)` discards all prior state — afterwards the
options store holds exactly the entries of `opts` and the engine cache
contains exactly the two default descriptors, keyed `.tmpl` and `.*` (not
`*`); calling `init` twice with the same input yields the same final state
as calling it once. -/
theorem c9_init_characterization (s : EnginesState) (opts : OptsObj) :
    (∀ k, lookupKey (initFn s opts).options k = lookupKey opts k) ∧
    (∀ k, ((lookupKey (initFn s opts).cache k).isSome = true ↔ (k = ".tmpl" ∨ k = ".*"))) ∧
    initFn (initFn s opts) opts = initFn s opts := by
  refine ⟨fun k => ?_, fun k => ?_, rfl⟩
  · rw [show (initFn s opts).options = opts ++ [] from rfl, List.append_nil]
  · have hc : (initFn s opts).cache =
        [(".*", resolveEngine (some []) noopEngine),
         (".tmpl", resolveEngine (some []) lodashEngine)] := rfl
    rw [hc]
    rcases eq_or_ne k ".*" with h1 | h1
    · subst h1
      decide
    · rcases eq_or_ne k ".tmpl" with h2 | h2
      · subst h2
        decide
      · simp [lookupKey, h1, h2]

/-- C10: `get` called with the empty string (the falsy string) returns the
entire engine cache mapping, exactly as `get` with no argument does — it is
never treated as an extension lookup and never falls back to the wildcard
descriptor. -/
theorem c10_get_empty_is_whole_cache (s : EnginesState) :
    getFn s (some "") = getFn s none ∧ getFn s none = .all s.cache :=
  ⟨rfl, rfl⟩

end EngineCache
